import Mathlib

/-!
# EC key-pair generation (`kona_ec_keypair.c`)

A shallow embedding of the four native entry points of `kona_ec_keypair.c`
(one-shot generation, context creation, context disposal, generation from a
context) together with the parts of the cryptography library and of the host
runtime that they call.

* Byte sequences are lists of naturals (each below 256).
* Pointers are naturals, `0` being `NULL`; a `jlong` is an integer and the casts
  between the two are written out (`ptrToJlong`, `jlongToPtr`).
* Every answer that the library or the runtime gives during one call (return
  codes, the generated key, addresses handed out by the allocators, whether a
  Java array could be created) is a field of `Lib`, so each entry point is a
  pure function of the answers, the native state and its argument.
* Each entry point returns its result, the native state it leaves and the
  list of library calls it made.
-/

namespace Kona

/-! ## Big-endian byte strings and the BIGNUM routines -/

/-- Fixed-width big-endian bytes: the `n` low-order base-256 digits of `a`,
most significant first. -/
def toBE : Nat → Nat → List Nat
  | 0, _ => []
  | n + 1, a => toBE n (a / 256) ++ [a % 256]

/-- Big-endian decoding of a byte string as an unsigned integer. -/
def fromBE (bs : List Nat) : Nat :=
  bs.foldl (fun acc b => acc * 256 + b) 0

/-- Number of halvings that take `a` to zero, counted with `fuel` steps at
most. -/
def bitLength : Nat → Nat → Nat
  | 0, _ => 0
  | fuel + 1, a => if a = 0 then 0 else bitLength fuel (a / 2) + 1

/-- Library routine `BN_num_bits`: the bit length of a non-negative BIGNUM, the
number of significant bits (`0` for zero). The fuel `a` is never exhausted. -/
def BN_num_bits (a : Nat) : Nat := bitLength a a

/-- Library macro `BN_num_bytes(a)`, which is `(BN_num_bits(a) + 7) / 8`. -/
def BN_num_bytes (a : Nat) : Nat := (BN_num_bits a + 7) / 8

/-- Library routine `BN_bn2bin`: writes exactly `BN_num_bytes(a)` bytes, most
significant first. -/
def BN_bn2bin (a : Nat) : List Nat := toBE (BN_num_bytes a) a


/-! ## Pointers, handles and machine integers -/

/-- Cast of a native pointer to `jlong` (two's complement, 64 bits). -/
def ptrToJlong (p : Nat) : Int :=
  let m : Nat := p % 2 ^ 64
  if m < 2 ^ 63 then (m : Int) else (m : Int) - 2 ^ 64

/-- Cast of a `jlong` back to a native pointer. -/
def jlongToPtr (h : Int) : Nat := (h % 2 ^ 64).toNat

/-- Cast `(jsize)len` of a `size_t` to the 32-bit signed `jsize`. -/
def toJsize (n : Nat) : Int :=
  let m : Nat := n % 2 ^ 32
  if m < 2 ^ 31 then (m : Int) else (m : Int) - 2 ^ 32

/-- Modelled from the spec: the constant `OPENSSL_FAILURE` of `kona/kona_common.h`,
which is not part of the sources at hand; the handle `0` is the invalid handle
that `CreateContext` returns on failure. -/
def OPENSSL_FAILURE : Int := 0

/-! ## The library and the runtime -/

/-- The key object behind an `EVP_PKEY`: the private scalar, the affine
coordinates of the public point and the byte length of the field of its
group. -/
structure ECKey where
  d : Nat
  Qx : Nat
  Qy : Nat
  fieldLen : Nat
  deriving DecidableEq

/-- What `EVP_PKEY_keygen` answers: either a key stored at a fresh address
(return code `1`), or the return code `-code` (zero or negative) with no key,
`*ppkey` being left `NULL`. -/
inductive Keygen where
  | generated (pkey : Nat) (key : ECKey)
  | failed (code : Nat)
  deriving DecidableEq

/-- Return code of `EVP_PKEY_keygen`. -/
def Keygen.rc : Keygen → Int
  | .generated _ _ => 1
  | .failed code => -(code : Int)

/-- The key that `EVP_PKEY_keygen` stored through `ppkey`, with its address. -/
def Keygen.pkey : Keygen → Option (Nat × ECKey)
  | .generated p key => some (p, key)
  | .failed _ => none

/-- Address stored through `ppkey`, when there is one. -/
def Keygen.addr (g : Keygen) : Option Nat := g.pkey.map Prod.fst

/-- The answers of the library and of the runtime during one call of an entry
point. Addresses are `0` for `NULL`. -/
structure Lib where
  /-- Address returned by `EVP_PKEY_CTX_new(pkey, NULL)`. -/
  ctxNew : Nat
  /-- Address returned by `EVP_PKEY_CTX_new_id(EVP_PKEY_EC, NULL)`. -/
  ctxNewId : Nat
  /-- Return code of `EVP_PKEY_keygen_init`. -/
  keygenInit : Int
  /-- Return code of `EVP_PKEY_CTX_set_ec_paramgen_curve_nid` for each curve
  identifier (the curve resolver). -/
  setCurve : Int → Int
  /-- Answer of `EVP_PKEY_keygen`. -/
  keygen : Keygen
  /-- Address returned by `malloc` for the private-key buffer. -/
  mallocPriv : Nat
  /-- Value returned by the sizing call `EC_POINT_point2oct(…, NULL, 0, NULL)`. -/
  point2octSize : Nat
  /-- Address returned by `malloc` for the public-key buffer. -/
  mallocPub : Nat
  /-- Whether the filling call of `EC_POINT_point2oct` gets through its internal
  work (it still fails on a buffer that is too short). -/
  point2octFill : Bool
  /-- Contents of freshly allocated memory. -/
  junk : Nat → Nat
  /-- Whether the runtime can create the private-key array. -/
  newPrivArray : Bool
  /-- Whether the runtime can create the public-key array. -/
  newPubArray : Bool
  /-- Whether the runtime can create the two-element result array. -/
  newObjectArray : Bool

/-- Contents of a buffer just returned by `malloc(n)`. -/
def uninit (lib : Lib) (n : Nat) : List Nat := (List.range n).map lib.junk

/-- Store `bytes` at the start of `buf`. -/
def writeAt (buf bytes : List Nat) : List Nat := bytes ++ buf.drop bytes.length

/-- Uncompressed octet encoding of the public point: the tag `0x04`, then X and
Y at the field length. -/
def uncompressed (key : ECKey) : List Nat :=
  4 :: (toBE key.fieldLen key.Qx ++ toBE key.fieldLen key.Qy)

/-- The filling call `EC_POINT_point2oct(group, point, POINT_CONVERSION_UNCOMPRESSED,
buf, len, NULL)`: the buffer afterwards. On failure (buffer too short, or an
internal failure) nothing is written. -/
def EC_POINT_point2oct (lib : Lib) (key : ECKey) (buf : List Nat) (len : Nat) : List Nat :=
  if lib.point2octFill = true ∧ 1 + 2 * key.fieldLen ≤ len then writeAt buf (uncompressed key)
  else buf

/-- Runtime call `NewByteArray(env, len)`: whether an array comes back. A negative
length never gives one. -/
def NewByteArray (canAllocate : Bool) (len : Int) : Bool :=
  canAllocate && decide (0 ≤ len)

/-- Runtime call `SetByteArrayRegion(env, array, 0, len, buf)` on a new array of
`len` elements: the array afterwards. -/
def SetByteArrayRegion (len : Int) (buf : List Nat) : List Nat := buf.take len.toNat

/-- Decoding of an uncompressed octet string at a given field length. -/
def decodePoint (fieldLen : Nat) : List Nat → Option (Nat × Nat)
  | 4 :: rest =>
    if rest.length = 2 * fieldLen then
      some (fromBE (rest.take fieldLen), fromBE (rest.drop fieldLen))
    else none
  | _ => none

/-! ## Native state and the log of library calls -/

/-- The live native resources: generation contexts, key objects, `malloc`
buffers, each by address. -/
structure Native where
  ctxs : List Nat
  keys : List Nat
  bufs : List Nat
  deriving DecidableEq

def Native.addCtx (s : Native) (p : Nat) : Native := { s with ctxs := p :: s.ctxs }
def Native.delCtx (s : Native) (p : Nat) : Native := { s with ctxs := s.ctxs.erase p }
def Native.addKey (s : Native) (k : Option Nat) : Native :=
  match k with
  | some a => { s with keys := a :: s.keys }
  | none => s
def Native.delKey (s : Native) (k : Nat) : Native := { s with keys := s.keys.erase k }
def Native.addBuf (s : Native) (b : Nat) : Native := { s with bufs := b :: s.bufs }
def Native.delBuf (s : Native) (b : Nat) : Native := { s with bufs := s.bufs.erase b }

/-- A call made to the library or the runtime. -/
inductive Event where
  | ctxNew (p : Nat)
  | keygenInit (p : Nat)
  | setCurve (p : Nat) (nid : Int)
  | keygen (p : Nat) (pkey : Option Nat)
  | ctxFree (p : Nat)
  | getKey (pkey : Nat)
  | keyFree (pkey : Nat)
  | malloc (size : Nat) (b : Nat)
  | free (b : Nat)
  | newByteArray (len : Int)
  | newObjectArray
  deriving DecidableEq

/-- A native resource. -/
inductive Resource where
  | ctx (p : Nat)
  | key (k : Nat)
  | buf (b : Nat)
  deriving DecidableEq

/-- The resource a call hands to the caller, if any. -/
def Event.acquires : Event → Option Resource
  | .ctxNew p => if p = 0 then none else some (.ctx p)
  | .keygen _ (some k) => some (.key k)
  | .malloc _ b => if b = 0 then none else some (.buf b)
  | _ => none

/-- The resource a call releases, if any. -/
def Event.releases : Event → Option Resource
  | .ctxFree p => some (.ctx p)
  | .keyFree k => some (.key k)
  | .free b => some (.buf b)
  | _ => none

def acquired (log : List Event) : List Resource := log.filterMap Event.acquires
def released (log : List Event) : List Resource := log.filterMap Event.releases

/-- Whether a call allocates an output buffer or a Java array. -/
def Event.allocatesOutput : Event → Bool
  | .malloc _ _ => true
  | .newByteArray _ => true
  | .newObjectArray => true
  | _ => false

/-- Whether a call is `EVP_PKEY_keygen`. -/
def Event.isKeygen : Event → Bool
  | .keygen _ _ => true
  | _ => false

/-- Outcome of a generation call. `undefined` stands for an execution that
hands a dangling or null pointer to the library, whose behaviour the C code
does not determine. -/
inductive GenResult where
  | failure
  | pair (privateKey publicKey : List Nat)
  | undefined
  deriving DecidableEq

/-- Outcome of a call that returns nothing. -/
inductive Status where
  | ok
  | undefined
  deriving DecidableEq

/-- One execution of an entry point: its result, the native state it leaves and
the calls it made, in order. -/
structure Run (α : Type) where
  result : α
  state : Native
  log : List Event

/-! ## The entry points -/

/-- The helper `ec_create_pkey_ctx` (lines 32-48). -/
def ec_create_pkey_ctx (lib : Lib) (pkey : Nat) : Nat :=
  let ctx := if pkey ≠ 0 then lib.ctxNew else lib.ctxNewId
  if ctx = 0 then 0 else ctx

/-- The extraction and encoding of the generated key, lines 75-125 of the
one-shot entry point and, word for word, lines 172-226 of the session entry
point. `s` is the state and `log` the calls made when this part starts;
`pkey` is what `EVP_PKEY_keygen` left in the local `pkey`, and reading the key
behind a null `pkey` is not defined. The C local `priv_key_len` is an `int`;
the byte length of a BIGNUM always fits one. -/
def encodeKeyPair (lib : Lib) (s : Native) (log : List Event) :
    Option (Nat × ECKey) → Run GenResult
  | none => ⟨.undefined, s, log ++ [.getKey 0]⟩
  | some (pkey, key) =>
    let priv_key_len := BN_num_bytes key.d
    let priv_key_ptr := lib.mallocPriv
    let log1 := log ++ [.getKey pkey, .malloc priv_key_len priv_key_ptr]
    if priv_key_ptr = 0 then
      ⟨.failure, s.delKey pkey, log1 ++ [.keyFree pkey]⟩
    else
      let s1 := s.addBuf priv_key_ptr
      let priv_key_bytes := writeAt (uninit lib priv_key_len) (BN_bn2bin key.d)
      let pub_key_len := lib.point2octSize
      let pub_key_ptr := lib.mallocPub
      let log2 := log1 ++ [.malloc pub_key_len pub_key_ptr]
      if pub_key_ptr = 0 then
        ⟨.failure, (s1.delBuf priv_key_ptr).delKey pkey,
          log2 ++ [.free priv_key_ptr, .keyFree pkey]⟩
      else
        let s2 := s1.addBuf pub_key_ptr
        let pub_key_bytes := EC_POINT_point2oct lib key (uninit lib pub_key_len) pub_key_len
        let log3 := log2 ++ [.newByteArray priv_key_len]
        let s3 := ((s2.delBuf priv_key_ptr).delBuf pub_key_ptr).delKey pkey
        let frees := [Event.free priv_key_ptr, .free pub_key_ptr, .keyFree pkey]
        if NewByteArray lib.newPrivArray priv_key_len = false then
          ⟨.failure, s3, log3 ++ frees⟩
        else
          let privKeyArray := SetByteArrayRegion priv_key_len priv_key_bytes
          let log4 := log3 ++ [.newByteArray (toJsize pub_key_len)]
          if NewByteArray lib.newPubArray (toJsize pub_key_len) = false then
            ⟨.failure, s3, log4 ++ frees⟩
          else
            let pubKeyArray := SetByteArrayRegion (toJsize pub_key_len) pub_key_bytes
            let log5 := log4 ++ frees ++ [.newObjectArray]
            if lib.newObjectArray = false then
              ⟨.failure, s3, log5⟩
            else
              ⟨.pair privKeyArray pubKeyArray, s3, log5⟩

/-- Entry point `ecOneShotKeyPairGenGenKeyPair` (lines 50-126): `Generate`. -/
def ecOneShotKeyPairGenGenKeyPair (lib : Lib) (s : Native) (curveNID : Int) :
    Run GenResult :=
  let pctx := lib.ctxNewId
  if pctx = 0 then
    ⟨.failure, s, [.ctxNew 0]⟩
  else
    let s1 := s.addCtx pctx
    let log1 := [Event.ctxNew pctx, .keygenInit pctx]
    if lib.keygenInit ≤ 0 then
      ⟨.failure, s1.delCtx pctx, log1 ++ [.ctxFree pctx]⟩
    else
      let log2 := log1 ++ [.setCurve pctx curveNID]
      if lib.setCurve curveNID ≤ 0 then
        ⟨.failure, s1.delCtx pctx, log2 ++ [.ctxFree pctx]⟩
      else
        let log3 := log2 ++ [.keygen pctx lib.keygen.addr]
        if lib.keygen.rc ≤ 0 then
          ⟨.failure, s1.delCtx pctx, log3 ++ [.ctxFree pctx]⟩
        else
          encodeKeyPair lib ((s1.addKey lib.keygen.addr).delCtx pctx)
            (log3 ++ [.ctxFree pctx]) lib.keygen.pkey

/-- Entry point `ecKeyPairGenCreateCtx` (lines 128-150): `CreateContext`. The C test
`!rc` holds exactly when `rc` is `0`. -/
def ecKeyPairGenCreateCtx (lib : Lib) (s : Native) (curveNID : Int) : Run Int :=
  let pctx := ec_create_pkey_ctx lib 0
  if pctx = 0 then
    ⟨OPENSSL_FAILURE, s, [.ctxNew 0]⟩
  else
    let s1 := s.addCtx pctx
    let log1 := [Event.ctxNew pctx, .keygenInit pctx]
    if lib.keygenInit = 0 then
      ⟨OPENSSL_FAILURE, s1.delCtx pctx, log1 ++ [.ctxFree pctx]⟩
    else
      let log2 := log1 ++ [.setCurve pctx curveNID]
      if lib.setCurve curveNID = 0 then
        ⟨OPENSSL_FAILURE, s1.delCtx pctx, log2 ++ [.ctxFree pctx]⟩
      else
        ⟨ptrToJlong pctx, s1, log2⟩

/-- Entry point `ecKeyPairGenFreeCtx` (lines 152-158): `FreeContext`. `EVP_PKEY_CTX_free`
on an address that is not a live context is a double free or a wild free. -/
def ecKeyPairGenFreeCtx (s : Native) (pointer : Int) : Run Status :=
  let pctx := jlongToPtr pointer
  if pctx ≠ 0 then
    if pctx ∈ s.ctxs then ⟨.ok, s.delCtx pctx, [.ctxFree pctx]⟩
    else ⟨.undefined, s, [.ctxFree pctx]⟩
  else
    ⟨.ok, s, []⟩

/-- Entry point `ecKeyPairGenGenKeyPair` (lines 160-227): `GenerateFromContext`.
`EVP_PKEY_keygen` on an address that is not a live context reads freed or
foreign memory. The C test `!rc` holds exactly when `rc` is `0`. -/
def ecKeyPairGenGenKeyPair (lib : Lib) (s : Native) (pointer : Int) : Run GenResult :=
  let pctx := jlongToPtr pointer
  if pctx = 0 then
    ⟨.failure, s, []⟩
  else if pctx ∉ s.ctxs then
    ⟨.undefined, s, [.keygen pctx none]⟩
  else if lib.keygen.rc = 0 then
    ⟨.failure, s, [.keygen pctx lib.keygen.addr]⟩
  else
    encodeKeyPair lib (s.addKey lib.keygen.addr) [.keygen pctx lib.keygen.addr]
      lib.keygen.pkey

/-- The state after `GenerateFromContext` has been called on the same handle
once for each element of `libs`. -/
def generateMany (libs : List Lib) (s : Native) (pointer : Int) : Native :=
  libs.foldl (fun st lib => (ecKeyPairGenGenKeyPair lib st pointer).state) s

/-! ## Curves -/

/-- What the claims need of a named curve: the order of the generator, the byte
length of a coordinate and the scalar multiples of the generator in affine
coordinates. -/
structure Curve where
  order : Nat
  fieldLen : Nat
  mulG : Nat → Nat × Nat

/-- The contract of the library's key generation on a curve: the scalar is in
`[1, order - 1]`, the point is the scalar multiple of the generator, and its
coordinates fit the coordinate length of the curve. -/
def Curve.validKey (c : Curve) (key : ECKey) : Prop :=
  1 ≤ key.d ∧ key.d < c.order ∧ (key.Qx, key.Qy) = c.mulG key.d ∧
    key.fieldLen = c.fieldLen ∧ key.Qx < 256 ^ c.fieldLen ∧ key.Qy < 256 ^ c.fieldLen

instance (c : Curve) (key : ECKey) : Decidable (c.validKey key) := by
  unfold Curve.validKey
  infer_instance

/-- Order of the generator of P-256. -/
def P256_order : Nat :=
  0xFFFFFFFF00000000FFFFFFFFFFFFFFFFBCE6FAADA7179E84F3B9CAC2FC632551

/-- The contract of the library on a curve, for the answers of one call: a key
that `EVP_PKEY_keygen` produces is valid for the curve, and `EC_POINT_point2oct`
on its point reports the length of the uncompressed encoding, which fits a
`jsize`, and fills a buffer of that length. -/
def Curve.contract (c : Curve) (lib : Lib) : Prop :=
  (∀ k ∈ lib.keygen.pkey, c.validKey k.2) ∧
    lib.point2octSize = 1 + 2 * c.fieldLen ∧ lib.point2octFill = true ∧
    1 + 2 * c.fieldLen < 2 ^ 31

instance (c : Curve) (lib : Lib) : Decidable (c.contract lib) := by
  unfold Curve.contract
  infer_instance

/-! ## A small curve and sample answers, used to exercise the definitions -/

/-- Modular exponentiation by repeated squaring; `fuel` bounds the number of
halvings of the exponent. -/
def powMod : Nat → Nat → Nat → Nat → Nat
  | 0, _, _, m => 1 % m
  | fuel + 1, b, e, m =>
    if e = 0 then 1 % m
    else
      let h := powMod fuel (b * b % m) (e / 2) m
      if e % 2 = 1 then b * h % m else h

/-- Inverse modulo a prime `p`, as the power `p - 2`. -/
def invMod (x p : Nat) : Nat := powMod p x (p - 2) p

/-- Addition on the curve `y² = x³ + a x + b` over the field of `p` elements, in
affine coordinates; `none` is the point at infinity. -/
def wAdd (p a : Nat) : Option (Nat × Nat) → Option (Nat × Nat) → Option (Nat × Nat)
  | none, q => q
  | pt, none => pt
  | some (x1, y1), some (x2, y2) =>
    if x1 = x2 ∧ (y1 + y2) % p = 0 then none
    else
      let l :=
        if x1 = x2 then (3 * x1 * x1 + a) * invMod (2 * y1) p % p
        else (y2 + p - y1) * invMod (x2 + p - x1) p % p
      let x3 := (l * l + 2 * p - x1 - x2) % p
      some (x3, (l * (x1 + p - x3) + p - y1) % p)

/-- Scalar multiples of a point `g`, by repeated addition. -/
def wMul (p a : Nat) (g : Nat × Nat) : Nat → Option (Nat × Nat)
  | 0 => none
  | n + 1 => wAdd p a (wMul p a g n) (some g)

/-- The small curve `y² = x³ + 2x + 2` over the field of 17 elements: generator
`(5, 1)` of order 19, one-byte coordinates. -/
def toyCurve : Curve :=
  { order := 19, fieldLen := 1, mulG := fun d => (wMul 17 2 (5, 1) d).getD (0, 0) }

/-- A key of the small curve: `7 · (5, 1) = (0, 6)`. -/
def toyKey : ECKey := { d := 7, Qx := 0, Qy := 6, fieldLen := 1 }

/-- Answers of a library in which every step succeeds, on the small curve. -/
def goodLib : Lib :=
  { ctxNew := 4096, ctxNewId := 4096, keygenInit := 1, setCurve := fun _ => 1,
    keygen := .generated 8192 toyKey, mallocPriv := 12288, point2octSize := 3,
    mallocPub := 16384, point2octFill := true, junk := fun _ => 170,
    newPrivArray := true, newPubArray := true, newObjectArray := true }

/-- A state with no live native resource. -/
def emptyNative : Native := { ctxs := [], keys := [], bufs := [] }

/-- X coordinate of the generator of P-256. -/
def P256_Gx : Nat :=
  0x6B17D1F2E12C4247F8BCE6E563A440F277037D812DEB33A0F4A13945D898C296

/-- Y coordinate of the generator of P-256. -/
def P256_Gy : Nat :=
  0x4FE342E2FE1A7F9B8EE7EB4A7C0F9E162BCE33576B315ECECBB6406837BF51F5

/-- Field prime of P-256. -/
def P256_p : Nat :=
  0xFFFFFFFF00000001000000000000000000000000FFFFFFFFFFFFFFFFFFFFFFFF

/-- The curve P-256, `y² = x³ - 3x + b` over the field of `P256_p` elements, with
32-byte coordinates. -/
def p256Curve : Curve :=
  { order := P256_order, fieldLen := 32,
    mulG := fun d => (wMul P256_p (P256_p - 3) (P256_Gx, P256_Gy) d).getD (0, 0) }

/-- The P-256 key with scalar `1`, whose public point is the generator. -/
def p256Key : ECKey := { d := 1, Qx := P256_Gx, Qy := P256_Gy, fieldLen := 32 }

/-- Answers of a library in which every step succeeds, on P-256. -/
def p256Lib : Lib :=
  { goodLib with keygen := .generated 8192 p256Key, point2octSize := 65 }

/-- As `p256Lib`, but the sizing call of `EC_POINT_point2oct` reports its failure
value `0`, and `malloc(0)` gives a non-null address. -/
def sizeZeroLib : Lib := { p256Lib with point2octSize := 0 }

/-- As `p256Lib`, but the filling call of `EC_POINT_point2oct` fails after the
sizing call has reported 65. -/
def fillFailLib : Lib := { p256Lib with point2octFill := false }

/-- A state whose only live resource is the context at address 4096. -/
def oneCtx : Native := emptyNative.addCtx 4096

/-- As `goodLib`, but curve selection fails with the return code `-1`. -/
def negCurveLib : Lib := { goodLib with setCurve := fun _ => -1 }

/-- As `goodLib`, but `EVP_PKEY_keygen_init` fails with the return code `-2`
(operation not supported). -/
def negInitLib : Lib := { goodLib with keygenInit := -2 }

/-- As `goodLib`, but key generation fails with the return code `-1` and leaves
no key. -/
def negKeygenLib : Lib := { goodLib with keygen := .failed 1 }

/-- As `goodLib`, but key generation fails with the return code `0` and leaves
no key. -/
def zeroKeygenLib : Lib := { goodLib with keygen := .failed 0 }

/-! ## Lemmas on the byte-string routines -/

theorem bitLength_spec (f a : Nat) (hf : a ≤ f) (ha : a ≠ 0) :
    ∃ k, bitLength f a = k + 1 ∧ 2 ^ k ≤ a ∧ a < 2 ^ (k + 1) := by
  induction f generalizing a with
  | zero => omega
  | succ f ih =>
    rw [bitLength, if_neg ha]
    by_cases h2 : a / 2 = 0
    · refine ⟨0, ?_, ?_, ?_⟩
      · rw [h2]; cases f <;> simp [bitLength]
      · simp; omega
      · simp; omega
    · obtain ⟨k, hk, h1, h3⟩ := ih (a / 2) (by omega) h2
      refine ⟨k + 1, by rw [hk], ?_, ?_⟩
      · rw [pow_succ]; omega
      · rw [pow_succ]; omega

/-- The bit length computed by halving is the library's notion of size. -/
theorem BN_num_bits_eq_size (a : Nat) : BN_num_bits a = Nat.size a := by
  by_cases ha : a = 0
  · subst ha; simp [BN_num_bits, bitLength]
  · obtain ⟨k, hk, h1, h2⟩ := bitLength_spec a a le_rfl ha
    unfold BN_num_bits
    rw [hk]
    apply le_antisymm
    · exact Nat.lt_size.mpr h1
    · exact Nat.size_le.mpr h2

theorem toBE_length (n a : Nat) : (toBE n a).length = n := by
  induction n generalizing a with
  | zero => rfl
  | succ n ih => simp [toBE, ih]

theorem fromBE_append_singleton (xs : List Nat) (b : Nat) :
    fromBE (xs ++ [b]) = fromBE xs * 256 + b := by
  simp [fromBE, List.foldl_append]

theorem fromBE_toBE (n a : Nat) : fromBE (toBE n a) = a % 256 ^ n := by
  induction n generalizing a with
  | zero => simp [toBE, fromBE, Nat.mod_one]
  | succ n ih =>
    rw [toBE, fromBE_append_singleton, ih, pow_succ]
    rw [Nat.mul_comm (256 ^ n) 256, Nat.mod_mul, Nat.add_comm, Nat.mul_comm]

theorem fromBE_toBE_of_lt (n a : Nat) (h : a < 256 ^ n) : fromBE (toBE n a) = a := by
  rw [fromBE_toBE, Nat.mod_eq_of_lt h]

theorem toBE_head (n a : Nat) :
    (toBE (n + 1) a).head? = some (a / 256 ^ n % 256) := by
  induction n generalizing a with
  | zero => simp [toBE]
  | succ n ih =>
    rw [toBE, List.head?_append_of_ne_nil _ (by
      intro h
      have := congrArg List.length h
      simp [toBE_length] at this), ih, Nat.div_div_eq_div_mul, pow_succ, Nat.mul_comm]

theorem lt_pow_BN_num_bytes (a : Nat) : a < 256 ^ BN_num_bytes a := by
  have h1 : a < 2 ^ Nat.size a := Nat.lt_size_self a
  have h2 : Nat.size a ≤ 8 * BN_num_bytes a := by
    unfold BN_num_bytes
    rw [BN_num_bits_eq_size]
    omega
  calc a < 2 ^ Nat.size a := h1
    _ ≤ 2 ^ (8 * BN_num_bytes a) := Nat.pow_le_pow_right (by norm_num) h2
    _ = 256 ^ BN_num_bytes a := by rw [pow_mul]; norm_num

theorem BN_num_bytes_mono {a b : Nat} (h : a ≤ b) : BN_num_bytes a ≤ BN_num_bytes b := by
  unfold BN_num_bytes
  rw [BN_num_bits_eq_size, BN_num_bits_eq_size]
  have := Nat.size_le_size h
  omega

theorem BN_num_bytes_le_of_lt_pow {a k : Nat} (h : a < 256 ^ k) : BN_num_bytes a ≤ k := by
  have h1 : a < 2 ^ (8 * k) := by
    rw [pow_mul]; norm_num; exact h
  have h2 : Nat.size a ≤ 8 * k := Nat.size_le.mpr h1
  unfold BN_num_bytes
  rw [BN_num_bits_eq_size]
  omega

theorem pow_le_of_BN_num_bytes (a n : Nat) (h : BN_num_bytes a = n + 1) : 256 ^ n ≤ a := by
  have h1 : 8 * n < Nat.size a := by
    unfold BN_num_bytes at h
    rw [BN_num_bits_eq_size] at h
    omega
  have h2 : 2 ^ (8 * n) ≤ a := Nat.lt_size.mp h1
  rw [pow_mul] at h2
  norm_num at h2
  exact h2

theorem BN_num_bytes_pos {a : Nat} (h : 1 ≤ a) : 1 ≤ BN_num_bytes a := by
  have h1 : 0 < Nat.size a := Nat.size_pos.mpr h
  unfold BN_num_bytes
  rw [BN_num_bits_eq_size]
  omega

/-! ## Lemmas on the machine-integer casts -/

theorem toJsize_of_lt {n : Nat} (h : n < 2 ^ 31) : toJsize n = (n : Int) := by
  unfold toJsize
  have h1 : n % 2 ^ 32 = n := Nat.mod_eq_of_lt (by omega)
  simp only [h1]
  rw [if_pos h]

theorem jlongToPtr_zero : jlongToPtr 0 = 0 := by
  simp [jlongToPtr]

theorem jlongToPtr_ptrToJlong {p : Nat} (h : p < 2 ^ 64) : jlongToPtr (ptrToJlong p) = p := by
  unfold jlongToPtr ptrToJlong
  have h1 : p % 2 ^ 64 = p := Nat.mod_eq_of_lt h
  simp only [h1]
  split_ifs with h2 <;> omega

theorem ptrToJlong_ne_zero {p : Nat} (h : p < 2 ^ 64) (h0 : p ≠ 0) : ptrToJlong p ≠ 0 := by
  unfold ptrToJlong
  have h1 : p % 2 ^ 64 = p := Nat.mod_eq_of_lt h
  simp only [h1]
  split_ifs with h2 <;> omega

/-! ## Lemmas on the buffers -/

theorem uninit_length (lib : Lib) (n : Nat) : (uninit lib n).length = n := by
  simp [uninit]

theorem BN_bn2bin_length (a : Nat) : (BN_bn2bin a).length = BN_num_bytes a := by
  simp [BN_bn2bin, toBE_length]

theorem uncompressed_length (key : ECKey) :
    (uncompressed key).length = 1 + 2 * key.fieldLen := by
  simp [uncompressed, toBE_length]
  omega

/-- Copying `len` bytes out of a buffer of `len` bytes that a write of `len`
bytes has filled gives the bytes written. -/
theorem take_writeAt (buf bytes : List Nat) (h : bytes.length = buf.length) :
    SetByteArrayRegion (buf.length : Nat) (writeAt buf bytes) = bytes := by
  simp [SetByteArrayRegion, writeAt, ← h]

theorem privKeyArray_eq (lib : Lib) (d : Nat) :
    SetByteArrayRegion (BN_num_bytes d : Nat)
      (writeAt (uninit lib (BN_num_bytes d)) (BN_bn2bin d)) = BN_bn2bin d := by
  have h := take_writeAt (uninit lib (BN_num_bytes d)) (BN_bn2bin d)
    (by rw [BN_bn2bin_length, uninit_length])
  rwa [uninit_length] at h

theorem pubKeyArray_eq (lib : Lib) (key : ECKey) (hfill : lib.point2octFill = true)
    (hlen : 1 + 2 * key.fieldLen < 2 ^ 31) :
    SetByteArrayRegion (toJsize (1 + 2 * key.fieldLen))
      (EC_POINT_point2oct lib key (uninit lib (1 + 2 * key.fieldLen)) (1 + 2 * key.fieldLen))
      = uncompressed key := by
  rw [toJsize_of_lt hlen]
  unfold EC_POINT_point2oct
  rw [if_pos ⟨hfill, le_refl _⟩]
  have h := take_writeAt (uninit lib (1 + 2 * key.fieldLen)) (uncompressed key)
    (by rw [uncompressed_length, uninit_length])
  rwa [uninit_length] at h

theorem decodePoint_uncompressed (key : ECKey)
    (hx : key.Qx < 256 ^ key.fieldLen) (hy : key.Qy < 256 ^ key.fieldLen) :
    decodePoint key.fieldLen (uncompressed key) = some (key.Qx, key.Qy) := by
  unfold uncompressed
  simp only [decodePoint]
  have hl : (toBE key.fieldLen key.Qx ++ toBE key.fieldLen key.Qy).length = 2 * key.fieldLen := by
    simp [toBE_length]; omega
  rw [if_pos hl]
  have h1 : (toBE key.fieldLen key.Qx ++ toBE key.fieldLen key.Qy).take key.fieldLen
      = toBE key.fieldLen key.Qx := by
    rw [List.take_append_of_le_length (by rw [toBE_length])]
    exact List.take_of_length_le (by rw [toBE_length])
  have h2 : (toBE key.fieldLen key.Qx ++ toBE key.fieldLen key.Qy).drop key.fieldLen
      = toBE key.fieldLen key.Qy := by
    have := List.drop_left (toBE key.fieldLen key.Qx) (toBE key.fieldLen key.Qy)
    rwa [toBE_length] at this
  rw [h1, h2, fromBE_toBE_of_lt _ _ hx, fromBE_toBE_of_lt _ _ hy]

theorem fromBE_BN_bn2bin (d : Nat) : fromBE (BN_bn2bin d) = d :=
  fromBE_toBE_of_lt _ _ (lt_pow_BN_num_bytes d)

theorem BN_bn2bin_head (d : Nat) (h : 1 ≤ d) :
    ∃ b, (BN_bn2bin d).head? = some b ∧ b ≠ 0 := by
  obtain ⟨n, hn⟩ : ∃ n, BN_num_bytes d = n + 1 :=
    ⟨BN_num_bytes d - 1, by have := BN_num_bytes_pos h; omega⟩
  refine ⟨d / 256 ^ n % 256, ?_, ?_⟩
  · unfold BN_bn2bin
    rw [hn, toBE_head]
  · have h1 : 256 ^ n ≤ d := pow_le_of_BN_num_bytes d n hn
    have h2 : d < 256 ^ (n + 1) := by
      have := lt_pow_BN_num_bytes d
      rwa [hn] at this
    have h3 : d / 256 ^ n < 256 := by
      rw [Nat.div_lt_iff_lt_mul (by positivity)]
      rw [pow_succ, Nat.mul_comm] at h2
      exact h2
    have h4 : 1 ≤ d / 256 ^ n := (Nat.one_le_div_iff (by positivity)).mpr h1
    rw [Nat.mod_eq_of_lt h3]
    omega

/-! ## Lemmas on the extraction and encoding part -/

/-- A pair comes back only when every allocation succeeded, and it is made of the
two arrays filled from the two buffers. -/
theorem encodeKeyPair_pair (lib : Lib) (s : Native) (log : List Event)
    (pk : Option (Nat × ECKey)) (priv pub : List Nat)
    (h : (encodeKeyPair lib s log pk).result = .pair priv pub) :
    ∃ k key, pk = some (k, key) ∧
      priv = BN_bn2bin key.d ∧
      pub = SetByteArrayRegion (toJsize lib.point2octSize)
        (EC_POINT_point2oct lib key (uninit lib lib.point2octSize) lib.point2octSize) := by
  match pk with
  | none => simp [encodeKeyPair] at h
  | some (k, key) =>
    refine ⟨k, key, rfl, ?_⟩
    simp only [encodeKeyPair] at h
    split_ifs at h
    simp at h
    obtain ⟨h1, h2⟩ := h
    rw [privKeyArray_eq] at h1
    exact ⟨h1.symm, h2.symm⟩

theorem Keygen.eq_generated_of_pkey {g : Keygen} {k : Nat} {key : ECKey}
    (h : g.pkey = some (k, key)) : g = .generated k key := by
  cases g with
  | generated p q =>
    simp only [Keygen.pkey, Option.some.injEq, Prod.mk.injEq] at h
    rw [h.1, h.2]
  | failed c => simp [Keygen.pkey] at h

/-- A pair returned by `Generate` is made from the key that key generation
produced in this call. -/
theorem oneShot_pair (lib : Lib) (s : Native) (curveNID : Int) (priv pub : List Nat)
    (h : (ecOneShotKeyPairGenGenKeyPair lib s curveNID).result = .pair priv pub) :
    ∃ k key, lib.keygen = .generated k key ∧
      priv = BN_bn2bin key.d ∧
      pub = SetByteArrayRegion (toJsize lib.point2octSize)
        (EC_POINT_point2oct lib key (uninit lib lib.point2octSize) lib.point2octSize) := by
  simp only [ecOneShotKeyPairGenGenKeyPair] at h
  split_ifs at h
  obtain ⟨k, key, hk, hp⟩ := encodeKeyPair_pair _ _ _ _ _ _ h
  exact ⟨k, key, Keygen.eq_generated_of_pkey hk, hp⟩

/-- A pair returned by `GenerateFromContext` is made from the key that key
generation produced in this call. -/
theorem session_pair (lib : Lib) (s : Native) (pointer : Int) (priv pub : List Nat)
    (h : (ecKeyPairGenGenKeyPair lib s pointer).result = .pair priv pub) :
    ∃ k key, lib.keygen = .generated k key ∧
      priv = BN_bn2bin key.d ∧
      pub = SetByteArrayRegion (toJsize lib.point2octSize)
        (EC_POINT_point2oct lib key (uninit lib lib.point2octSize) lib.point2octSize) := by
  simp only [ecKeyPairGenGenKeyPair] at h
  split_ifs at h
  obtain ⟨k, key, hk, hp⟩ := encodeKeyPair_pair _ _ _ _ _ _ h
  exact ⟨k, key, Keygen.eq_generated_of_pkey hk, hp⟩

/-- When every step succeeds, `Generate` and `GenerateFromContext` (on a live
handle) do return a pair: the minimal big-endian scalar and whatever the
filling call left in the first `point2octSize` bytes of the public buffer. -/
theorem generate_returns_pair (lib : Lib) (s : Native) (curveNID pointer : Int)
    (k : Nat) (key : ECKey)
    (hctx : lib.ctxNewId ≠ 0) (hinit : 0 < lib.keygenInit) (hcurve : 0 < lib.setCurve curveNID)
    (hgen : lib.keygen = .generated k key) (hpriv : lib.mallocPriv ≠ 0)
    (hpub : lib.mallocPub ≠ 0) (hsize : lib.point2octSize < 2 ^ 31)
    (ha1 : lib.newPrivArray = true) (ha2 : lib.newPubArray = true)
    (ha3 : lib.newObjectArray = true)
    (hnz : jlongToPtr pointer ≠ 0) (hlive : jlongToPtr pointer ∈ s.ctxs) :
    (ecOneShotKeyPairGenGenKeyPair lib s curveNID).result =
        .pair (BN_bn2bin key.d) (SetByteArrayRegion (toJsize lib.point2octSize)
          (EC_POINT_point2oct lib key (uninit lib lib.point2octSize) lib.point2octSize)) ∧
      (ecKeyPairGenGenKeyPair lib s pointer).result =
        .pair (BN_bn2bin key.d) (SetByteArrayRegion (toJsize lib.point2octSize)
          (EC_POINT_point2oct lib key (uninit lib lib.point2octSize) lib.point2octSize)) := by
  have hj : (0 : Int) ≤ toJsize lib.point2octSize := by
    rw [toJsize_of_lt hsize]; exact Int.ofNat_nonneg _
  have henc : ∀ st lg, (encodeKeyPair lib st lg (some (k, key))).result =
      .pair (BN_bn2bin key.d) (SetByteArrayRegion (toJsize lib.point2octSize)
          (EC_POINT_point2oct lib key (uninit lib lib.point2octSize) lib.point2octSize)) := by
    intro st lg
    simp only [encodeKeyPair, if_neg hpriv, if_neg hpub, NewByteArray, ha1, ha2, ha3,
      Bool.true_and, decide_eq_false_iff_not, not_le, hj, Int.ofNat_nonneg]
    simp [privKeyArray_eq, not_lt.mpr hj]
  constructor
  · simp only [ecOneShotKeyPairGenGenKeyPair, if_neg hctx, if_neg (not_le.mpr hinit),
      if_neg (not_le.mpr hcurve), hgen, Keygen.rc, Keygen.pkey]
    simp [henc]
  · simp only [ecKeyPairGenGenKeyPair, if_neg hnz, hgen, Keygen.rc, Keygen.pkey]
    simp [hlive, henc]

/-! ## C1: the returned pair and the one generated key -/

/-- When the library keeps, beyond the contract of key generation, that of
`EC_POINT_point2oct` (the sizing call reports the uncompressed length and the
filling call succeeds), a pair that `Generate` or `GenerateFromContext` returns
is the encoding of the one key generated in this call: the private bytes are
the big-endian bytes of `d` and decode to `d`, the public bytes are the
uncompressed octet encoding of the point, and the point decoded from them is
(the scalar decoded from the private bytes) `· G`. -/
theorem pair_encodes_key_of_point2oct (c : Curve) (lib : Lib) (s : Native)
    (curveNID pointer : Int) (priv pub : List Nat)
    (hlib : c.contract lib)
    (hres : (ecOneShotKeyPairGenGenKeyPair lib s curveNID).result = .pair priv pub ∨
      (ecKeyPairGenGenKeyPair lib s pointer).result = .pair priv pub) :
    ∃ pkey key, lib.keygen = .generated pkey key ∧
      1 ≤ key.d ∧ key.d < c.order ∧ (key.Qx, key.Qy) = c.mulG key.d ∧
      priv = BN_bn2bin key.d ∧ fromBE priv = key.d ∧
      pub = uncompressed key ∧
      decodePoint c.fieldLen pub = some (key.Qx, key.Qy) ∧
      decodePoint c.fieldLen pub = some (c.mulG (fromBE priv)) := by
  have hex : ∃ k key, lib.keygen = .generated k key ∧
      priv = BN_bn2bin key.d ∧
      pub = SetByteArrayRegion (toJsize lib.point2octSize)
        (EC_POINT_point2oct lib key (uninit lib lib.point2octSize) lib.point2octSize) := by
    rcases hres with h | h
    · exact oneShot_pair lib s curveNID priv pub h
    · exact session_pair lib s pointer priv pub h
  obtain ⟨k, key, hgen, hpriv, hpub⟩ := hex
  obtain ⟨hvalid, hsize, hfill, hlen⟩ := hlib
  have hv : c.validKey key := hvalid (k, key) (by rw [hgen]; rfl)
  obtain ⟨hd1, hd2, hQ, hfl, hx, hy⟩ := hv
  rw [← hfl] at hsize hlen hx hy
  rw [hsize, pubKeyArray_eq lib key hfill hlen] at hpub
  have hdec : decodePoint c.fieldLen pub = some (key.Qx, key.Qy) := by
    rw [hpub, ← hfl]; exact decodePoint_uncompressed key hx hy
  have hfrom : fromBE priv = key.d := by rw [hpriv]; exact fromBE_BN_bn2bin key.d
  refine ⟨k, key, hgen, hd1, hd2, hQ, hpriv, hfrom, hpub, hdec, ?_⟩
  rw [hdec, hfrom, hQ]

/-- The preceding statement at the small curve: both entry points return the
pair `([7], [4, 0, 6])` for the key `7 · G = (0, 6)`. -/
theorem pair_encodes_key_of_point2oct_small :
    toyCurve.contract goodLib ∧
    (ecOneShotKeyPairGenGenKeyPair goodLib emptyNative 415).result = .pair [7] [4, 0, 6] ∧
    (ecKeyPairGenGenKeyPair goodLib (emptyNative.addCtx 4096) 4096).result
      = .pair [7] [4, 0, 6] ∧
    ∃ pkey key, goodLib.keygen = .generated pkey key ∧
      1 ≤ key.d ∧ key.d < toyCurve.order ∧ (key.Qx, key.Qy) = toyCurve.mulG key.d ∧
      [7] = BN_bn2bin key.d ∧ fromBE [7] = key.d ∧
      [4, 0, 6] = uncompressed key ∧
      decodePoint toyCurve.fieldLen [4, 0, 6] = some (key.Qx, key.Qy) ∧
      decodePoint toyCurve.fieldLen [4, 0, 6] = some (toyCurve.mulG (fromBE [7])) :=
  ⟨by decide, by decide, by decide,
    pair_encodes_key_of_point2oct toyCurve goodLib emptyNative 415 0 [7] [4, 0, 6]
      (by decide) (Or.inl (by decide))⟩

/-- C1, at the failing inputs. On P-256 key generation keeps its contract: it
yields the key `d = 1`, `Q = 1 · G`, valid for the curve. When the sizing call
of `EC_POINT_point2oct` reports `0`, both entry points still return a pair; its
private bytes decode to `d`, but its public bytes are empty: they are not the
uncompressed encoding of `Q` and decode to no point, so not to
(decoded scalar) `· G`. When the sizing call reports 65 and the filling call
fails, the pair carries the 65 bytes the fresh buffer happened to hold, which
are not the encoding of `Q` either. -/
theorem pair_is_not_encoding_when_point2oct_fails :
    p256Curve.validKey p256Key ∧
    sizeZeroLib.keygen = .generated 8192 p256Key ∧
    (ecOneShotKeyPairGenGenKeyPair sizeZeroLib emptyNative 415).result = .pair [1] [] ∧
    (ecKeyPairGenGenKeyPair sizeZeroLib oneCtx 4096).result = .pair [1] [] ∧
    fromBE [1] = p256Key.d ∧
    [] ≠ uncompressed p256Key ∧
    decodePoint p256Curve.fieldLen [] = none ∧
    decodePoint p256Curve.fieldLen [] ≠ some (p256Curve.mulG (fromBE [1])) ∧
    fillFailLib.keygen = .generated 8192 p256Key ∧
    (ecOneShotKeyPairGenGenKeyPair fillFailLib emptyNative 415).result
      = .pair [1] (List.replicate 65 170) ∧
    (ecKeyPairGenGenKeyPair fillFailLib oneCtx 4096).result
      = .pair [1] (List.replicate 65 170) ∧
    List.replicate 65 170 ≠ uncompressed p256Key ∧
    decodePoint p256Curve.fieldLen (List.replicate 65 170)
      ≠ some (p256Curve.mulG (fromBE [1])) := by
  decide

/-! ## C2: the private-key bytes -/

theorem toBE_lt (n a : Nat) : ∀ b ∈ toBE n a, b < 256 := by
  induction n generalizing a with
  | zero => simp [toBE]
  | succ n ih =>
    intro b hb
    rw [toBE, List.mem_append] at hb
    rcases hb with hb | hb
    · exact ih _ b hb
    · rw [List.mem_singleton] at hb
      rw [hb]
      exact Nat.mod_lt _ (by norm_num)

theorem BN_num_bytes_P256_order : BN_num_bytes P256_order = 32 := by
  have h1 : Nat.size P256_order ≤ 256 := Nat.size_le.mpr (by norm_num [P256_order])
  have h2 : 255 < Nat.size P256_order := Nat.lt_size.mpr (by norm_num [P256_order])
  unfold BN_num_bytes
  rw [BN_num_bits_eq_size]
  omega

/-- C2. For a generated scalar `d ≥ 1`, the private-key array that `Generate` or
`GenerateFromContext` returns is the minimal big-endian unsigned encoding of
`d`: it is `BN_bn2bin d`, its length is `BN_num_bytes d`, the ceiling of the bit
length over 8, its bytes are below 256 and the first one is not zero, and it
decodes to `d`; so for `d` below an order its length is at most the byte length
of the order (32 on P-256), and less than that when `d < 256 ^ (that - 1)`. -/
theorem private_key_minimal_big_endian (lib : Lib) (s : Native)
    (curveNID pointer : Int) (pkey : Nat) (key : ECKey) (priv pub : List Nat)
    (hgen : lib.keygen = .generated pkey key) (hd : 1 ≤ key.d)
    (hres : (ecOneShotKeyPairGenGenKeyPair lib s curveNID).result = .pair priv pub ∨
      (ecKeyPairGenGenKeyPair lib s pointer).result = .pair priv pub) :
    priv = BN_bn2bin key.d ∧
      priv.length = BN_num_bytes key.d ∧
      priv.length = (BN_num_bits key.d + 7) / 8 ∧
      (BN_num_bits key.d ≤ 8 * priv.length ∧ 8 * priv.length < BN_num_bits key.d + 8) ∧
      (2 ^ (BN_num_bits key.d - 1) ≤ key.d ∧ key.d < 2 ^ BN_num_bits key.d) ∧
      (∀ b ∈ priv, b < 256) ∧
      (∃ b, priv.head? = some b ∧ b ≠ 0) ∧
      fromBE priv = key.d ∧
      (∀ order, key.d < order →
        priv.length ≤ BN_num_bytes order ∧
        (key.d < 256 ^ (BN_num_bytes order - 1) → priv.length < BN_num_bytes order)) ∧
      (key.d < P256_order → priv.length ≤ 32) := by
  have hex : ∃ k key', lib.keygen = .generated k key' ∧
      priv = BN_bn2bin key'.d ∧
      pub = SetByteArrayRegion (toJsize lib.point2octSize)
        (EC_POINT_point2oct lib key' (uninit lib lib.point2octSize) lib.point2octSize) := by
    rcases hres with h | h
    · exact oneShot_pair lib s curveNID priv pub h
    · exact session_pair lib s pointer priv pub h
  obtain ⟨k, key', hgen', hpriv, -⟩ := hex
  rw [hgen] at hgen'
  simp only [Keygen.generated.injEq] at hgen'
  obtain ⟨-, hkey⟩ := hgen'
  subst hkey
  have hlen : priv.length = BN_num_bytes key.d := by rw [hpriv, BN_bn2bin_length]
  have hbits : 2 ^ (BN_num_bits key.d - 1) ≤ key.d ∧ key.d < 2 ^ BN_num_bits key.d := by
    rw [BN_num_bits_eq_size]
    refine ⟨?_, Nat.lt_size_self _⟩
    have hpos : 0 < Nat.size key.d := Nat.size_pos.mpr hd
    exact Nat.lt_size.mp (by omega)
  refine ⟨hpriv, hlen, by rw [hlen]; rfl, ?_, hbits, ?_, ?_, ?_, ?_, ?_⟩
  · rw [hlen]
    unfold BN_num_bytes
    omega
  · rw [hpriv]
    exact toBE_lt _ _
  · rw [hpriv]
    exact BN_bn2bin_head key.d hd
  · rw [hpriv]
    exact fromBE_BN_bn2bin key.d
  · intro order hlt
    rw [hlen]
    refine ⟨BN_num_bytes_mono (le_of_lt hlt), fun hsmall => ?_⟩
    have h1 := BN_num_bytes_le_of_lt_pow hsmall
    have h2 := BN_num_bytes_pos (a := order) (by omega)
    omega
  · intro hlt
    rw [hlen, ← BN_num_bytes_P256_order]
    exact BN_num_bytes_mono (le_of_lt hlt)

/-- C2 on P-256 with the scalar `1`: the private-key array is the single byte
`1`. -/
theorem private_key_minimal_big_endian_witness :
    (ecOneShotKeyPairGenGenKeyPair p256Lib emptyNative 415).result
      = .pair [1] (uncompressed p256Key) ∧
    [1] = BN_bn2bin p256Key.d ∧ [1].length = BN_num_bytes p256Key.d ∧
    fromBE [1] = p256Key.d ∧ (p256Key.d < P256_order → [1].length ≤ 32) :=
  have h := private_key_minimal_big_endian p256Lib emptyNative 415 0 8192 p256Key [1]
    (uncompressed p256Key) rfl (by decide) (Or.inl (by decide))
  ⟨by decide, h.1, h.2.1, h.2.2.2.2.2.2.2.1, h.2.2.2.2.2.2.2.2.2⟩

/-! ## C3: the public-key bytes -/

/-- C3, at the failing input. On P-256, when the sizing call of
`EC_POINT_point2oct` reports `0`, both entry points return a pair, and its
public-key array is empty, not the 65 bytes `04 ‖ X ‖ Y`; when it reports 65
they return the 65 bytes. -/
theorem point2oct_zero_size_gives_empty_public_key :
    (ecOneShotKeyPairGenGenKeyPair sizeZeroLib emptyNative 415).result = .pair [1] [] ∧
    (ecKeyPairGenGenKeyPair sizeZeroLib oneCtx 4096).result = .pair [1] [] ∧
    (ecOneShotKeyPairGenGenKeyPair p256Lib emptyNative 415).result
      = .pair [1] (uncompressed p256Key) ∧
    (ecKeyPairGenGenKeyPair p256Lib oneCtx 4096).result = .pair [1] (uncompressed p256Key) ∧
    (uncompressed p256Key).length = 65 ∧ (uncompressed p256Key).head? = some 4 := by
  decide

/-! ## Lemmas on the native state and the log -/

theorem erase_two (l : List Nat) (b1 b2 : Nat) :
    ((b2 :: b1 :: l).erase b1).erase b2 = l := by
  by_cases h : b2 = b1
  · subst h; simp
  · rw [List.erase_cons_tail (by simpa using h), List.erase_cons_head, List.erase_cons_head]

/-- The extraction and encoding part releases the key it was given and every
buffer it allocated: it leaves the state it found, less the key. -/
theorem encodeKeyPair_state (lib : Lib) (s : Native) (log : List Event) (k : Nat)
    (key : ECKey) : (encodeKeyPair lib s log (some (k, key))).state = s.delKey k := by
  simp only [encodeKeyPair]
  split_ifs <;>
    simp [Native.addBuf, Native.delBuf, Native.delKey, erase_two]

theorem encodeKeyPair_state_none (lib : Lib) (s : Native) (log : List Event) :
    (encodeKeyPair lib s log none).state = s := rfl

/-- The calls of the extraction and encoding part are appended to the log, and
do not depend on the state or on the calls made before. -/
theorem encodeKeyPair_log_eq (lib : Lib) (s : Native) (log : List Event)
    (pk : Option (Nat × ECKey)) :
    (encodeKeyPair lib s log pk).log = log ++ (encodeKeyPair lib emptyNative [] pk).log := by
  match pk with
  | none => rfl
  | some (k, key) =>
    simp only [encodeKeyPair]
    split_ifs <;> simp

/-- Releases and acquisitions of the extraction and encoding part: it releases
the key it was given and, as often as it allocated them, its buffers. -/
theorem encodeKeyPair_balance (lib : Lib) (k : Nat) (key : ECKey) (r : Resource) :
    (released (encodeKeyPair lib emptyNative [] (some (k, key))).log).count r
      = (acquired (encodeKeyPair lib emptyNative [] (some (k, key))).log).count r
        + (if Resource.key k = r then 1 else 0) := by
  simp only [encodeKeyPair]
  split_ifs <;>
    simp [released, acquired, List.filterMap_cons, Event.releases,
      Event.acquires, List.count_cons, *] <;>
    omega

theorem encodeKeyPair_balance_none (lib : Lib) :
    released (encodeKeyPair lib emptyNative [] none).log = [] ∧
    acquired (encodeKeyPair lib emptyNative [] none).log = [] := by
  simp [encodeKeyPair, released, acquired, Event.releases, Event.acquires]

/-- The extraction and encoding part never releases a context, calls key
generation or creates a context. -/
theorem encodeKeyPair_log (lib : Lib) (pk : Option (Nat × ECKey)) :
    ∀ e ∈ (encodeKeyPair lib emptyNative [] pk).log,
      (∀ p, e ≠ .ctxFree p) ∧ (∀ p, e ≠ .ctxNew p) ∧ e.isKeygen = false := by
  match pk with
  | none => simp [encodeKeyPair, Event.isKeygen]
  | some (k, key) =>
    simp only [encodeKeyPair]
    split_ifs <;> simp [Event.isKeygen]

theorem released_append (l1 l2 : List Event) :
    released (l1 ++ l2) = released l1 ++ released l2 := by
  simp [released, List.filterMap_append]

theorem acquired_append (l1 l2 : List Event) :
    acquired (l1 ++ l2) = acquired l1 ++ acquired l2 := by
  simp [acquired, List.filterMap_append]

theorem Keygen.rc_pos_iff (g : Keygen) : 0 < g.rc ↔ ∃ k key, g = .generated k key := by
  cases g with
  | generated k key => simp [Keygen.rc]
  | failed c => simp [Keygen.rc]

/-- The call `Generate` leaves the native state it found. -/
theorem oneShot_state (lib : Lib) (s : Native) (curveNID : Int) :
    (ecOneShotKeyPairGenGenKeyPair lib s curveNID).state = s := by
  simp only [ecOneShotKeyPairGenGenKeyPair]
  split_ifs with h1 h2 h3 h4
  · rfl
  · simp [Native.addCtx, Native.delCtx]
  · simp [Native.addCtx, Native.delCtx]
  · simp [Native.addCtx, Native.delCtx]
  · obtain ⟨k, key, hk⟩ := (Keygen.rc_pos_iff lib.keygen).mp (not_le.mp h4)
    rw [hk]
    simp [Keygen.pkey, Keygen.addr, encodeKeyPair_state, Native.addCtx, Native.delCtx,
      Native.addKey, Native.delKey]

/-- In `Generate`, every resource is released as many times as it was
acquired. -/
theorem oneShot_balance (lib : Lib) (s : Native) (curveNID : Int) (r : Resource) :
    (released (ecOneShotKeyPairGenGenKeyPair lib s curveNID).log).count r
      = (acquired (ecOneShotKeyPairGenGenKeyPair lib s curveNID).log).count r := by
  simp only [ecOneShotKeyPairGenGenKeyPair]
  split_ifs with h1 h2 h3 h4
  · simp [released, acquired, Event.releases, Event.acquires]
  · simp [released, acquired, Event.releases, Event.acquires, h1]
  · simp [released, acquired, Event.releases, Event.acquires, h1]
  · have hf : lib.keygen.addr = none := by
      cases hk : lib.keygen with
      | generated k key => rw [hk] at h4; simp [Keygen.rc] at h4
      | failed c => rfl
    simp [released, acquired, Event.releases, Event.acquires, h1, hf]
  · obtain ⟨k, key, hk⟩ := (Keygen.rc_pos_iff lib.keygen).mp (not_le.mp h4)
    rw [encodeKeyPair_log_eq, released_append, acquired_append, List.count_append,
      List.count_append, hk]
    simp only [Keygen.pkey]
    rw [encodeKeyPair_balance]
    simp [released, acquired, Event.releases, Event.acquires, h1, Keygen.addr, Keygen.pkey,
      List.count_cons]
    omega

/-- The call `GenerateFromContext` on a live handle leaves the native state it found. -/
theorem session_state (lib : Lib) (s : Native) (pointer : Int)
    (hlive : jlongToPtr pointer ∈ s.ctxs) :
    (ecKeyPairGenGenKeyPair lib s pointer).state = s := by
  simp only [ecKeyPairGenGenKeyPair]
  by_cases h1 : jlongToPtr pointer = 0
  · rw [if_pos h1]
  · rw [if_neg h1, if_neg (not_not.mpr hlive)]
    by_cases h3 : lib.keygen.rc = 0
    · rw [if_pos h3]
    · rw [if_neg h3]
      cases hk : lib.keygen with
      | generated k key =>
        simp [Keygen.pkey, Keygen.addr, encodeKeyPair_state, Native.addKey, Native.delKey]
      | failed c =>
        simp [Keygen.pkey, Keygen.addr, encodeKeyPair_state_none, Native.addKey]

/-- In `GenerateFromContext`, every resource is released as many times as it
was acquired. -/
theorem session_balance (lib : Lib) (s : Native) (pointer : Int) (r : Resource) :
    (released (ecKeyPairGenGenKeyPair lib s pointer).log).count r
      = (acquired (ecKeyPairGenGenKeyPair lib s pointer).log).count r := by
  simp only [ecKeyPairGenGenKeyPair]
  by_cases h1 : jlongToPtr pointer = 0
  · rw [if_pos h1]; simp [released, acquired]
  · rw [if_neg h1]
    by_cases h2 : jlongToPtr pointer ∉ s.ctxs
    · rw [if_pos h2]; simp [released, acquired, Event.releases, Event.acquires]
    · rw [if_neg h2]
      by_cases h3 : lib.keygen.rc = 0
      · rw [if_pos h3]
        have hf : lib.keygen.addr = none := by
          cases hk : lib.keygen with
          | generated k key => rw [hk] at h3; simp [Keygen.rc] at h3
          | failed c => rfl
        simp [released, acquired, Event.releases, Event.acquires, hf]
      · rw [if_neg h3, encodeKeyPair_log_eq, released_append, acquired_append,
          List.count_append, List.count_append]
        cases hk : lib.keygen with
        | generated k key =>
          simp only [Keygen.pkey]
          rw [encodeKeyPair_balance]
          simp [released, acquired, Event.releases, Event.acquires, Keygen.addr, Keygen.pkey,
            List.count_cons]
          omega
        | failed c =>
          simp only [Keygen.pkey]
          rw [(encodeKeyPair_balance_none lib).1, (encodeKeyPair_balance_none lib).2]
          simp [released, acquired, Event.releases, Event.acquires, Keygen.addr, Keygen.pkey]

/-- The call `GenerateFromContext` never releases a context. -/
theorem session_no_ctxFree (lib : Lib) (s : Native) (pointer : Int) (p : Nat) :
    Event.ctxFree p ∉ (ecKeyPairGenGenKeyPair lib s pointer).log := by
  simp only [ecKeyPairGenGenKeyPair]
  by_cases h1 : jlongToPtr pointer = 0
  · rw [if_pos h1]; simp
  · rw [if_neg h1]
    by_cases h2 : jlongToPtr pointer ∉ s.ctxs
    · rw [if_pos h2]; simp
    · rw [if_neg h2]
      by_cases h3 : lib.keygen.rc = 0
      · rw [if_pos h3]; simp
      · rw [if_neg h3, encodeKeyPair_log_eq]
        intro hmem
        rw [List.mem_append] at hmem
        rcases hmem with hmem | hmem
        · simp at hmem
        · exact (encodeKeyPair_log lib _ _ hmem).1 p rfl

theorem generateMany_state (libs : List Lib) (s : Native) (pointer : Int)
    (hlive : jlongToPtr pointer ∈ s.ctxs) : generateMany libs s pointer = s := by
  induction libs with
  | nil => rfl
  | cons lib rest ih =>
    unfold generateMany at ih ⊢
    rw [List.foldl_cons, session_state lib s pointer hlive]
    exact ih

theorem count_eq_one_of_balance {l1 l2 : List Resource}
    (h : ∀ r, l1.count r = l2.count r) (hnd : l2.Nodup) :
    ∀ r ∈ l2, l1.count r = 1 := by
  intro r hr
  rw [h r]
  exact List.count_eq_one_of_mem hnd hr

/-! ## C10: no net effect on the native resources -/

/-- C10. Every generation call leaves the set of live native resources as it
found it, on every path. `Generate`, in every state, ends in the state in which
it started and has released each resource as often as it acquired it, so
exactly once when the library hands out distinct addresses.
`GenerateFromContext` on a live handle does the same for the key and the
buffers, never releases a context, and leaves the handle live, so any number of
further calls on it leave the state unchanged as well. An execution that stops
being defined (a negative return code of key generation on the session path) is
counted with the state it had reached, in which no key or buffer has been
acquired. -/
theorem generation_has_no_net_effect (lib : Lib) (s : Native) (curveNID pointer : Int) :
    ((ecOneShotKeyPairGenGenKeyPair lib s curveNID).state = s ∧
      (∀ r, (released (ecOneShotKeyPairGenGenKeyPair lib s curveNID).log).count r
        = (acquired (ecOneShotKeyPairGenGenKeyPair lib s curveNID).log).count r) ∧
      ((acquired (ecOneShotKeyPairGenGenKeyPair lib s curveNID).log).Nodup →
        ∀ r ∈ acquired (ecOneShotKeyPairGenGenKeyPair lib s curveNID).log,
          (released (ecOneShotKeyPairGenGenKeyPair lib s curveNID).log).count r = 1)) ∧
    ((∀ r, (released (ecKeyPairGenGenKeyPair lib s pointer).log).count r
        = (acquired (ecKeyPairGenGenKeyPair lib s pointer).log).count r) ∧
      ((acquired (ecKeyPairGenGenKeyPair lib s pointer).log).Nodup →
        ∀ r ∈ acquired (ecKeyPairGenGenKeyPair lib s pointer).log,
          (released (ecKeyPairGenGenKeyPair lib s pointer).log).count r = 1) ∧
      (∀ p, Event.ctxFree p ∉ (ecKeyPairGenGenKeyPair lib s pointer).log)) ∧
    (jlongToPtr pointer ∈ s.ctxs →
      (ecKeyPairGenGenKeyPair lib s pointer).state = s ∧
      jlongToPtr pointer ∈ (ecKeyPairGenGenKeyPair lib s pointer).state.ctxs ∧
      ∀ libs : List Lib, generateMany libs s pointer = s) := by
  refine ⟨⟨oneShot_state lib s curveNID, oneShot_balance lib s curveNID, ?_⟩,
    ⟨session_balance lib s pointer, ?_, session_no_ctxFree lib s pointer⟩, ?_⟩
  · exact count_eq_one_of_balance (oneShot_balance lib s curveNID)
  · exact count_eq_one_of_balance (session_balance lib s pointer)
  · intro hlive
    refine ⟨session_state lib s pointer hlive, ?_, ?_⟩
    · rw [session_state lib s pointer hlive]; exact hlive
    · intro libs
      exact generateMany_state libs s pointer hlive

/-- C10 on P-256: `Generate` in the state with no live resource acquires a
context, a key and two buffers and ends with no live resource; with one live
context, `GenerateFromContext` acquires a key and two buffers and releases each
once, and the context stays through four calls. -/
theorem generation_has_no_net_effect_witness :
    acquired (ecOneShotKeyPairGenGenKeyPair p256Lib emptyNative 415).log
      = [.ctx 4096, .key 8192, .buf 12288, .buf 16384] ∧
    released (ecOneShotKeyPairGenGenKeyPair p256Lib emptyNative 415).log
      = [.ctx 4096, .buf 12288, .buf 16384, .key 8192] ∧
    (ecOneShotKeyPairGenGenKeyPair p256Lib emptyNative 415).state = emptyNative ∧
    (ecOneShotKeyPairGenGenKeyPair p256Lib oneCtx 415).state = oneCtx ∧
    jlongToPtr 4096 ∈ oneCtx.ctxs ∧
    acquired (ecKeyPairGenGenKeyPair p256Lib oneCtx 4096).log
      = [.key 8192, .buf 12288, .buf 16384] ∧
    released (ecKeyPairGenGenKeyPair p256Lib oneCtx 4096).log
      = [.buf 12288, .buf 16384, .key 8192] ∧
    (ecKeyPairGenGenKeyPair p256Lib oneCtx 4096).state = oneCtx ∧
    generateMany [p256Lib, goodLib, negKeygenLib, sizeZeroLib] oneCtx 4096 = oneCtx :=
  have h0 := generation_has_no_net_effect p256Lib emptyNative 415 4096
  have h := generation_has_no_net_effect p256Lib oneCtx 415 4096
  ⟨by decide, by decide, h0.1.1, h.1.1, by decide, by decide, by decide,
    (h.2.2 (by decide)).1, (h.2.2 (by decide)).2.2 _⟩

/-! ## C7: an unresolved curve in `Generate` -/

/-- C7. When curve selection reports failure for the curve identifier (a return
code that is zero or negative), `Generate` returns the failure sentinel, never
calls key generation, allocates no buffer and no array, and releases the
context it created before it returns: the state is the one it started in, and
when the curve step is reached the calls are exactly creation, initialisation,
curve selection, release. -/
theorem unresolved_curve_rejected (lib : Lib) (s : Native) (curveNID : Int)
    (h : lib.setCurve curveNID ≤ 0) :
    (ecOneShotKeyPairGenGenKeyPair lib s curveNID).result = .failure ∧
    (∀ e ∈ (ecOneShotKeyPairGenGenKeyPair lib s curveNID).log,
      e.isKeygen = false ∧ e.allocatesOutput = false) ∧
    (ecOneShotKeyPairGenGenKeyPair lib s curveNID).state = s ∧
    (lib.ctxNewId ≠ 0 →
      (ecOneShotKeyPairGenGenKeyPair lib s curveNID).log.getLast?
        = some (.ctxFree lib.ctxNewId) ∧
      (ecOneShotKeyPairGenGenKeyPair lib s curveNID).log.count (.ctxFree lib.ctxNewId) = 1) ∧
    (lib.ctxNewId ≠ 0 → 0 < lib.keygenInit →
      (ecOneShotKeyPairGenGenKeyPair lib s curveNID).log
        = [.ctxNew lib.ctxNewId, .keygenInit lib.ctxNewId,
            .setCurve lib.ctxNewId curveNID, .ctxFree lib.ctxNewId]) ∧
    (lib.ctxNewId = 0 → acquired (ecOneShotKeyPairGenGenKeyPair lib s curveNID).log = []) := by
  refine ⟨?_, ?_, oneShot_state lib s curveNID, ?_, ?_, ?_⟩
  · simp only [ecOneShotKeyPairGenGenKeyPair]
    split_ifs <;> rfl
  · simp only [ecOneShotKeyPairGenGenKeyPair]
    split_ifs <;> simp [Event.isKeygen, Event.allocatesOutput]
  · intro h0
    simp only [ecOneShotKeyPairGenGenKeyPair]
    rw [if_neg h0]
    split_ifs <;> simp [List.count_cons]
  · intro h0 hinit
    simp only [ecOneShotKeyPairGenGenKeyPair]
    rw [if_neg h0, if_neg (not_le.mpr hinit), if_pos h]
    rfl
  · intro h0
    simp only [ecOneShotKeyPairGenGenKeyPair]
    rw [if_pos h0]
    simp [acquired, Event.acquires]

/-- C7 with curve selection answering `-1`. -/
theorem unresolved_curve_rejected_witness :
    negCurveLib.setCurve 415 ≤ 0 ∧
    (ecOneShotKeyPairGenGenKeyPair negCurveLib emptyNative 415).result = .failure ∧
    (ecOneShotKeyPairGenGenKeyPair negCurveLib emptyNative 415).log
      = [.ctxNew 4096, .keygenInit 4096, .setCurve 4096 415, .ctxFree 4096] ∧
    (ecOneShotKeyPairGenGenKeyPair negCurveLib emptyNative 415).state = emptyNative :=
  have h := unresolved_curve_rejected negCurveLib emptyNative 415 (by decide)
  ⟨by decide, h.1, h.2.2.2.2.1 (by decide) (by decide), h.2.2.1⟩

/-! ## Context creation and disposal -/

theorem ec_create_pkey_ctx_null (lib : Lib) : ec_create_pkey_ctx lib 0 = lib.ctxNewId := by
  unfold ec_create_pkey_ctx
  simp only [ne_eq, not_true_eq_false, if_false]
  split_ifs with h
  · exact h.symm
  · rfl

/-- What `CreateContext` does, by the three answers it looks at. -/
theorem createCtx_cases (lib : Lib) (s : Native) (curveNID : Int) :
    (lib.ctxNewId = 0 ∨ lib.keygenInit = 0 ∨ lib.setCurve curveNID = 0 →
      (ecKeyPairGenCreateCtx lib s curveNID).result = 0 ∧
      (ecKeyPairGenCreateCtx lib s curveNID).state = s) ∧
    (lib.ctxNewId ≠ 0 → lib.keygenInit ≠ 0 → lib.setCurve curveNID ≠ 0 →
      (ecKeyPairGenCreateCtx lib s curveNID).result = ptrToJlong lib.ctxNewId ∧
      (ecKeyPairGenCreateCtx lib s curveNID).state = s.addCtx lib.ctxNewId ∧
      (ecKeyPairGenCreateCtx lib s curveNID).log
        = [.ctxNew lib.ctxNewId, .keygenInit lib.ctxNewId, .setCurve lib.ctxNewId curveNID]) := by
  simp only [ecKeyPairGenCreateCtx, ec_create_pkey_ctx_null]
  constructor
  · intro h
    split_ifs with h1 h2 h3
    · exact ⟨rfl, rfl⟩
    · exact ⟨rfl, by simp [Native.addCtx, Native.delCtx]⟩
    · exact ⟨rfl, by simp [Native.addCtx, Native.delCtx]⟩
    · rcases h with h | h | h <;> contradiction
  · intro h1 h2 h3
    rw [if_neg h1, if_neg h2, if_neg h3]
    exact ⟨rfl, rfl, rfl⟩

/-- A non-zero result of `CreateContext` is the address of the context it
created and left live. -/
theorem createCtx_nonzero (lib : Lib) (s : Native) (curveNID : Int)
    (h : (ecKeyPairGenCreateCtx lib s curveNID).result ≠ 0) :
    lib.ctxNewId ≠ 0 ∧ lib.keygenInit ≠ 0 ∧ lib.setCurve curveNID ≠ 0 ∧
      (ecKeyPairGenCreateCtx lib s curveNID).result = ptrToJlong lib.ctxNewId ∧
      (ecKeyPairGenCreateCtx lib s curveNID).state = s.addCtx lib.ctxNewId := by
  have hc := createCtx_cases lib s curveNID
  by_cases h1 : lib.ctxNewId = 0
  · exact absurd (hc.1 (Or.inl h1)).1 h
  by_cases h2 : lib.keygenInit = 0
  · exact absurd (hc.1 (Or.inr (Or.inl h2))).1 h
  by_cases h3 : lib.setCurve curveNID = 0
  · exact absurd (hc.1 (Or.inr (Or.inr h3))).1 h
  exact ⟨h1, h2, h3, (hc.2 h1 h2 h3).1, (hc.2 h1 h2 h3).2.1⟩

/-! ## C6: the handle 0 -/

/-- C6. The handle `0` is never live and always rejected. `CreateContext`
returns a non-zero handle exactly when it leaves the context it created live,
which it does whenever all three steps succeed, and then the handle is the
address of that context; it returns `0` only when a step failed, and then it
leaves no context behind; it never makes the address `0` live.
`GenerateFromContext(0)` returns the failure sentinel in every state, calls
nothing and changes nothing. -/
theorem zero_handle_rejected (lib : Lib) (s : Native) (curveNID : Int)
    (hptr : lib.ctxNewId < 2 ^ 64) :
    (lib.ctxNewId ≠ 0 → 0 < lib.keygenInit → 0 < lib.setCurve curveNID →
      (ecKeyPairGenCreateCtx lib s curveNID).result ≠ 0) ∧
    ((ecKeyPairGenCreateCtx lib s curveNID).result ≠ 0 →
      jlongToPtr (ecKeyPairGenCreateCtx lib s curveNID).result = lib.ctxNewId ∧
      jlongToPtr (ecKeyPairGenCreateCtx lib s curveNID).result ≠ 0 ∧
      jlongToPtr (ecKeyPairGenCreateCtx lib s curveNID).result
        ∈ (ecKeyPairGenCreateCtx lib s curveNID).state.ctxs) ∧
    ((ecKeyPairGenCreateCtx lib s curveNID).result = 0 →
      (lib.ctxNewId = 0 ∨ lib.keygenInit ≤ 0 ∨ lib.setCurve curveNID ≤ 0) ∧
      (ecKeyPairGenCreateCtx lib s curveNID).state = s) ∧
    (0 ∉ s.ctxs → 0 ∉ (ecKeyPairGenCreateCtx lib s curveNID).state.ctxs) ∧
    (ecKeyPairGenGenKeyPair lib s 0).result = .failure ∧
    (ecKeyPairGenGenKeyPair lib s 0).state = s ∧
    (ecKeyPairGenGenKeyPair lib s 0).log = [] := by
  have hc := createCtx_cases lib s curveNID
  refine ⟨?_, ?_, ?_, ?_, ?_, ?_, ?_⟩
  · intro h1 h2 h3
    rw [(hc.2 h1 (ne_of_gt h2) (ne_of_gt h3)).1]
    exact ptrToJlong_ne_zero hptr h1
  · intro h
    obtain ⟨h1, -, -, hr, hs⟩ := createCtx_nonzero lib s curveNID h
    rw [hr, hs, jlongToPtr_ptrToJlong hptr]
    exact ⟨rfl, h1, by simp [Native.addCtx]⟩
  · intro h
    by_cases h1 : lib.ctxNewId = 0
    · exact ⟨Or.inl h1, (hc.1 (Or.inl h1)).2⟩
    by_cases h2 : lib.keygenInit = 0
    · exact ⟨Or.inr (Or.inl (le_of_eq h2)), (hc.1 (Or.inr (Or.inl h2))).2⟩
    by_cases h3 : lib.setCurve curveNID = 0
    · exact ⟨Or.inr (Or.inr (le_of_eq h3)), (hc.1 (Or.inr (Or.inr h3))).2⟩
    · rw [(hc.2 h1 h2 h3).1] at h
      exact absurd h (ptrToJlong_ne_zero hptr h1)
  · intro h0
    by_cases hr : (ecKeyPairGenCreateCtx lib s curveNID).result = 0
    · by_cases h1 : lib.ctxNewId = 0
      · rw [(hc.1 (Or.inl h1)).2]; exact h0
      by_cases h2 : lib.keygenInit = 0
      · rw [(hc.1 (Or.inr (Or.inl h2))).2]; exact h0
      by_cases h3 : lib.setCurve curveNID = 0
      · rw [(hc.1 (Or.inr (Or.inr h3))).2]; exact h0
      · rw [(hc.2 h1 h2 h3).1] at hr
        exact absurd hr (ptrToJlong_ne_zero hptr h1)
    · obtain ⟨h1, -, -, -, hs⟩ := createCtx_nonzero lib s curveNID hr
      rw [hs]
      simp only [Native.addCtx, List.mem_cons, not_or]
      exact ⟨fun h => h1 h.symm, h0⟩
  · simp [ecKeyPairGenGenKeyPair, jlongToPtr_zero]
  · simp [ecKeyPairGenGenKeyPair, jlongToPtr_zero]
  · simp [ecKeyPairGenGenKeyPair, jlongToPtr_zero]

/-- C6 with every step succeeding: the handle is 4096, and `0` is rejected
while that context is live. -/
theorem zero_handle_rejected_witness :
    goodLib.ctxNewId < 2 ^ 64 ∧
    (ecKeyPairGenCreateCtx goodLib emptyNative 415).result = 4096 ∧
    (ecKeyPairGenCreateCtx goodLib emptyNative 415).result ≠ 0 ∧
    (ecKeyPairGenGenKeyPair goodLib oneCtx 0).result = .failure ∧
    (ecKeyPairGenGenKeyPair goodLib oneCtx 0).log = [] :=
  have h := zero_handle_rejected goodLib emptyNative 415 (by decide)
  have h2 := zero_handle_rejected goodLib oneCtx 415 (by decide)
  ⟨by decide, by decide, h.1 (by decide) (by decide) (by decide), h2.2.2.2.2.1,
    h2.2.2.2.2.2.2⟩

/-! ## C8 and C9: negative return codes on the session path -/

/-- C8, at the failing input. When curve selection answers `-1`, or
initialisation answers `-2`, `CreateContext` returns the non-zero handle 4096
and leaves the context live, where `Generate`, given the same answers, returns
the failure sentinel; on the answer `0` `CreateContext` does return `0` and
releases the context. -/
theorem create_accepts_negative_return_code :
    negCurveLib.setCurve 415 ≤ 0 ∧
    (ecKeyPairGenCreateCtx negCurveLib emptyNative 415).result = 4096 ∧
    (ecKeyPairGenCreateCtx negCurveLib emptyNative 415).state = oneCtx ∧
    (ecOneShotKeyPairGenGenKeyPair negCurveLib emptyNative 415).result = .failure ∧
    negInitLib.keygenInit ≤ 0 ∧
    (ecKeyPairGenCreateCtx negInitLib emptyNative 415).result = 4096 ∧
    (ecKeyPairGenCreateCtx negInitLib emptyNative 415).state = oneCtx ∧
    (ecOneShotKeyPairGenGenKeyPair negInitLib emptyNative 415).result = .failure ∧
    (ecKeyPairGenCreateCtx { goodLib with setCurve := fun _ => 0 } emptyNative 415).result = 0 ∧
    (ecKeyPairGenCreateCtx { goodLib with setCurve := fun _ => 0 } emptyNative 415).state
      = emptyNative := by
  decide

/-- C9, at the failing input. On the live handle 4096, when key generation
answers `-1` and leaves no key, `GenerateFromContext` does not return the
failure sentinel: it goes on to read the scalar from the absent key.
`Generate`, given the same answer, returns the failure sentinel; on the answer
`0` both do. -/
theorem generate_from_context_reads_absent_key :
    negKeygenLib.keygen.rc = -1 ∧ negKeygenLib.keygen.pkey = none ∧
    4096 ∈ oneCtx.ctxs ∧
    (ecKeyPairGenGenKeyPair negKeygenLib oneCtx 4096).result = .undefined ∧
    (ecKeyPairGenGenKeyPair negKeygenLib oneCtx 4096).result ≠ .failure ∧
    (ecKeyPairGenGenKeyPair negKeygenLib oneCtx 4096).log
      = [.keygen 4096 none, .getKey 0] ∧
    (ecOneShotKeyPairGenGenKeyPair negKeygenLib emptyNative 415).result = .failure ∧
    (ecKeyPairGenGenKeyPair zeroKeygenLib oneCtx 4096).result = .failure ∧
    (ecOneShotKeyPairGenGenKeyPair zeroKeygenLib emptyNative 415).result = .failure := by
  decide

/-! ## C4 and C5: handles that are not live -/

/-- C4, as stated, fails. After `CreateContext` has returned the handle 4096 and
`FreeContext(4096)` has released the context, `GenerateFromContext(4096)` does
not return the failure sentinel, and it hands the released context to key
generation. -/
theorem generate_on_freed_handle_counterexample :
    (ecKeyPairGenCreateCtx goodLib emptyNative 415).result = 4096 ∧
    (ecKeyPairGenCreateCtx goodLib emptyNative 415).state = oneCtx ∧
    (ecKeyPairGenFreeCtx oneCtx 4096).state = emptyNative ∧
    4096 ∉ emptyNative.ctxs ∧
    (ecKeyPairGenGenKeyPair goodLib emptyNative 4096).result ≠ .failure ∧
    Event.keygen 4096 none ∈ (ecKeyPairGenGenKeyPair goodLib emptyNative 4096).log := by
  decide

/-- C4, amended. `GenerateFromContext` compares the handle with the sentinel
`0` and with nothing else. For a handle that a successful `CreateContext`
returned: while the context is live, the call hands it to key generation;
`FreeContext` releases it, after which it is not live; and a later
`GenerateFromContext` on the handle still hands the released address to key
generation, with a result the code does not determine, instead of returning the
failure sentinel. Only the handle `0` is answered with the failure sentinel
without any call. -/
theorem generate_checks_sentinel_only (lib0 lib : Lib) (s : Native) (curveNID : Int)
    (hptr : lib0.ctxNewId < 2 ^ 64) (hfresh : lib0.ctxNewId ∉ s.ctxs)
    (hok : (ecKeyPairGenCreateCtx lib0 s curveNID).result ≠ 0) :
    (ecKeyPairGenGenKeyPair lib (ecKeyPairGenCreateCtx lib0 s curveNID).state
        (ecKeyPairGenCreateCtx lib0 s curveNID).result).log.head?
      = some (.keygen lib0.ctxNewId lib.keygen.addr) ∧
    (ecKeyPairGenFreeCtx (ecKeyPairGenCreateCtx lib0 s curveNID).state
        (ecKeyPairGenCreateCtx lib0 s curveNID).result).result = .ok ∧
    (ecKeyPairGenFreeCtx (ecKeyPairGenCreateCtx lib0 s curveNID).state
        (ecKeyPairGenCreateCtx lib0 s curveNID).result).state = s ∧
    lib0.ctxNewId ∉ (ecKeyPairGenFreeCtx (ecKeyPairGenCreateCtx lib0 s curveNID).state
        (ecKeyPairGenCreateCtx lib0 s curveNID).result).state.ctxs ∧
    (ecKeyPairGenGenKeyPair lib
        (ecKeyPairGenFreeCtx (ecKeyPairGenCreateCtx lib0 s curveNID).state
          (ecKeyPairGenCreateCtx lib0 s curveNID).result).state
        (ecKeyPairGenCreateCtx lib0 s curveNID).result).log
      = [.keygen lib0.ctxNewId none] ∧
    (ecKeyPairGenGenKeyPair lib
        (ecKeyPairGenFreeCtx (ecKeyPairGenCreateCtx lib0 s curveNID).state
          (ecKeyPairGenCreateCtx lib0 s curveNID).result).state
        (ecKeyPairGenCreateCtx lib0 s curveNID).result).result = .undefined ∧
    (ecKeyPairGenGenKeyPair lib s 0).result = .failure ∧
    (ecKeyPairGenGenKeyPair lib s 0).log = [] := by
  obtain ⟨h1, -, -, hr, hs⟩ := createCtx_nonzero lib0 s curveNID hok
  have hp : jlongToPtr (ptrToJlong lib0.ctxNewId) = lib0.ctxNewId :=
    jlongToPtr_ptrToJlong hptr
  have hfree : ecKeyPairGenFreeCtx (s.addCtx lib0.ctxNewId) (ptrToJlong lib0.ctxNewId)
      = ⟨.ok, s, [.ctxFree lib0.ctxNewId]⟩ := by
    simp only [ecKeyPairGenFreeCtx, hp]
    rw [if_pos h1, if_pos (by simp [Native.addCtx])]
    simp [Native.addCtx, Native.delCtx]
  rw [hr, hs, hfree]
  refine ⟨?_, rfl, rfl, hfresh, ?_, ?_, ?_, ?_⟩
  · simp only [ecKeyPairGenGenKeyPair, hp]
    rw [if_neg h1, if_neg (by simp [Native.addCtx])]
    by_cases h3 : lib.keygen.rc = 0
    · rw [if_pos h3]; rfl
    · rw [if_neg h3, encodeKeyPair_log_eq]; rfl
  · simp only [ecKeyPairGenGenKeyPair, hp]
    rw [if_neg h1, if_pos hfresh]
  · simp only [ecKeyPairGenGenKeyPair, hp]
    rw [if_neg h1, if_pos hfresh]
  · simp [ecKeyPairGenGenKeyPair, jlongToPtr_zero]
  · simp [ecKeyPairGenGenKeyPair, jlongToPtr_zero]

/-- C4, amended, on the handle 4096 created in the empty state. -/
theorem generate_checks_sentinel_only_witness :
    goodLib.ctxNewId < 2 ^ 64 ∧ goodLib.ctxNewId ∉ emptyNative.ctxs ∧
    (ecKeyPairGenCreateCtx goodLib emptyNative 415).result ≠ 0 ∧
    (ecKeyPairGenGenKeyPair p256Lib
        (ecKeyPairGenFreeCtx (ecKeyPairGenCreateCtx goodLib emptyNative 415).state
          (ecKeyPairGenCreateCtx goodLib emptyNative 415).result).state
        (ecKeyPairGenCreateCtx goodLib emptyNative 415).result).log
      = [.keygen goodLib.ctxNewId none] ∧
    (ecKeyPairGenGenKeyPair p256Lib emptyNative 0).result = .failure :=
  have h := generate_checks_sentinel_only goodLib p256Lib emptyNative 415
    (by decide) (by decide) (by decide)
  ⟨by decide, by decide, by decide, h.2.2.2.2.1, h.2.2.2.2.2.2.1⟩

/-- C5, as stated, fails. The handle 4096 is not live once `FreeContext(4096)`
has released its context, and a second `FreeContext(4096)` does not release
nothing: it calls the release routine on the address again. -/
theorem free_twice_counterexample :
    (ecKeyPairGenFreeCtx oneCtx 4096).state = emptyNative ∧
    jlongToPtr 4096 ∉ (ecKeyPairGenFreeCtx oneCtx 4096).state.ctxs ∧
    ¬ (ecKeyPairGenFreeCtx (ecKeyPairGenFreeCtx oneCtx 4096).state 4096).log = [] ∧
    Event.ctxFree 4096
      ∈ (ecKeyPairGenFreeCtx (ecKeyPairGenFreeCtx oneCtx 4096).state 4096).log ∧
    (ecKeyPairGenFreeCtx (ecKeyPairGenFreeCtx oneCtx 4096).state 4096).result = .undefined := by
  decide

/-- C5, amended. `FreeContext` compares the handle with the sentinel `0` and
with nothing else. On `0` it releases nothing and leaves the state unchanged,
however often it is called. On a live handle it calls the release routine once,
on that context, and removes exactly that context from the live ones. Every
other non-zero handle is passed to the release routine as well. -/
theorem free_context_checks_sentinel_only (s : Native) (pointer : Int) :
    ((ecKeyPairGenFreeCtx s 0).result = .ok ∧ (ecKeyPairGenFreeCtx s 0).state = s ∧
      (ecKeyPairGenFreeCtx s 0).log = []) ∧
    (ecKeyPairGenFreeCtx (ecKeyPairGenFreeCtx s 0).state 0).state = s ∧
    (jlongToPtr pointer ≠ 0 → jlongToPtr pointer ∈ s.ctxs →
      (ecKeyPairGenFreeCtx s pointer).result = .ok ∧
      (ecKeyPairGenFreeCtx s pointer).log = [.ctxFree (jlongToPtr pointer)] ∧
      (ecKeyPairGenFreeCtx s pointer).state = s.delCtx (jlongToPtr pointer) ∧
      (ecKeyPairGenFreeCtx s pointer).state.keys = s.keys ∧
      (ecKeyPairGenFreeCtx s pointer).state.bufs = s.bufs ∧
      (s.ctxs.Nodup →
        ∀ q, q ∈ (ecKeyPairGenFreeCtx s pointer).state.ctxs ↔
          q ≠ jlongToPtr pointer ∧ q ∈ s.ctxs)) ∧
    (jlongToPtr pointer ≠ 0 →
      (ecKeyPairGenFreeCtx s pointer).log = [.ctxFree (jlongToPtr pointer)]) := by
  have h0 : ecKeyPairGenFreeCtx s 0 = ⟨.ok, s, []⟩ := by
    simp [ecKeyPairGenFreeCtx, jlongToPtr_zero]
  refine ⟨by rw [h0]; exact ⟨rfl, rfl, rfl⟩, by rw [h0, h0], ?_, ?_⟩
  · intro hnz hlive
    simp only [ecKeyPairGenFreeCtx]
    rw [if_pos hnz, if_pos hlive]
    refine ⟨rfl, rfl, rfl, rfl, rfl, ?_⟩
    intro hnd q
    simp only [Native.delCtx]
    exact hnd.mem_erase_iff
  · intro hnz
    simp only [ecKeyPairGenFreeCtx]
    rw [if_pos hnz]
    split_ifs <;> rfl

/-- C5, amended, on the state with the one context 4096. -/
theorem free_context_checks_sentinel_only_witness :
    (ecKeyPairGenFreeCtx oneCtx 0).state = oneCtx ∧
    (ecKeyPairGenFreeCtx oneCtx 4096).state = emptyNative ∧
    (ecKeyPairGenFreeCtx oneCtx 4096).log = [.ctxFree 4096] :=
  have h := free_context_checks_sentinel_only oneCtx 4096
  ⟨h.1.2.1, by decide, (h.2.2.1 (by decide) (by decide)).2.1⟩

end Kona

